import Mathlib

/-!
# ElectroMart exchange-rate cache (`js/api.js`)

A shallow embedding of the `API` object of `js/api.js`: the single-slot rate
cache kept in `localStorage`, the read-through `fetchExchangeRates`, the
conversion helper `convertPrice` and the page-load initialiser `init`.

Modelling conventions.
* JavaScript values that flow through the code are JSON values (`JSON`); JS
  `null` is `JSON.null`, `undefined` is `none` of an `Option JSON`.
* A number is given by its value, a rational; the embedding compares numbers
  with zero and passes them on, and computes with none: the product that
  `convertPrice` returns is kept as the pair of its operands (`JSProduct`).
  Timestamps (`Date.now()`) are integers (milliseconds).
* What a property read finds beyond the own properties of a parsed object
  (members inherited from prototypes, the index and `length` members of strings
  and arrays) belongs to the JavaScript realm, a parameter (`Realm`).
* An `async` function is embedded as a function of the network behaviour it
  meets: what the awaited request yields and how long the await lasts.
* A thrown exception is the `error` side of `Except JSError`.
-/

namespace ElectroMart

/-- JSON values, as produced by `response.json()` and `JSON.parse`. An object is
an association list; the first binding of a key is the one property access sees. -/
inductive JSON where
  | null
  | bool (b : Bool)
  | num (q : ℚ)
  | str (s : String)
  | arr (xs : List JSON)
  | obj (kvs : List (String × JSON))

/-- JavaScript truthiness (`ToBoolean`) of a JSON value. -/
def JSON.truthy : JSON → Bool
  | .null => false
  | .bool b => b
  | .num q => decide (q ≠ 0)
  | .str s => decide (s ≠ "")
  | .arr _ => true
  | .obj _ => true

/-- Own property `v.key` of a non-null value; `none` is `undefined`. This is the
whole read for the fixed names `rates`, `EUR`, `TRY` and `time_last_updated`,
which name no built-in member of any value. A read with a key chosen by the
caller is `JSON.member`. -/
def JSON.prop (v : JSON) (key : String) : Option JSON :=
  match v with
  | .obj kvs => kvs.lookup key
  | _ => none

/-- What the property read `v[key]` yields: `undefined`, a JSON value, or a value
that is no JSON value (an inherited method, a prototype object), of which only
the truthiness is kept. -/
inductive Member where
  | undefined
  | json (v : JSON)
  | native (truthy : Bool)

/-- JavaScript truthiness of the result of a property read. -/
def Member.truthy : Member → Bool
  | .undefined => false
  | .json v => v.truthy
  | .native b => b

/-- The JavaScript realm: what a read of `key` on `v` finds when `v` has no own
JSON property `key`: a member inherited from a prototype (`toString`,
`constructor`, `__proto__`, ...), or an index or the `length` of a string or an
array. -/
structure Realm where
  builtin : JSON → String → Member

/-- The property read `v[key]` on a non-null value: an own property of a parsed
object shadows everything else; otherwise the realm decides. -/
def JSON.member (v : JSON) (realm : Realm) (key : String) : Member :=
  match v.prop key with
  | some x => .json x
  | none => realm.builtin v key

/-- Exceptions raised inside the code. -/
inductive JSError where
  | typeError
  | syntaxError
  | quotaExceeded
  | error (message : String)
  deriving DecidableEq, Repr

/-- Property access `v.key` as an expression: reading a property of `null`
throws a `TypeError`. -/
def getProp (v : JSON) (key : String) : Except JSError (Option JSON) :=
  match v with
  | .null => .error .typeError
  | w => .ok (w.prop key)

/-- The call `x.toFixed(2)`: only a number has the method; on `undefined`, `null`
or any other JSON value the call throws a `TypeError`. The rendered text is
represented by the number it renders. -/
def toFixed (x : Option JSON) : Except JSError ℚ :=
  match x with
  | some (.num q) => .ok q
  | _ => .error .typeError

/-- The JavaScript number `usdAmount * factor` that `convertPrice` returns: the
IEEE-754 product of `usdAmount` and `ToNumber(factor)`. It is kept as the pair
of its operands and is not evaluated. -/
structure JSProduct where
  usdAmount : ℚ
  factor : Member

/-- The value stored under `CACHE_KEY`. `entry data timestamp` is what
`cacheRates` writes, `JSON.stringify` of an object with the fields `data` and
`timestamp`. `unparseable` stands for any other string on which the statement
`const { data, timestamp } = JSON.parse(cached)` throws. -/
inductive Persisted where
  | unparseable
  | entry (data : JSON) (timestamp : Int)

/-- What the element `#usdRate` shows. -/
inductive RateContent where
  | initial
  | rates (eur : ℚ) (tryRate : ℚ)
  | unavailable

/-- The element `#usdRate`: its content and whether `style.opacity` was set to
`0.5`. -/
structure RateView where
  content : RateContent
  dimmed : Bool

/-- The element `#currencyDisplay`: whether `style.opacity` was set to `1`, and
the `time_last_updated` value its title was rendered from. -/
structure CurrencyView where
  shown : Bool
  lastUpdated : Option JSON

/-- Everything outside the `API` object that its methods read or change. -/
structure World where
  /-- Current reading of `Date.now()`. -/
  now : Int
  /-- Value of `localStorage` under `CACHE_KEY`; `none` when the key is unset. -/
  storage : Option Persisted
  /-- Result of `document.getElementById` for `usdRate`. -/
  usdRate : Option RateView
  /-- Result of `document.getElementById` for `currencyDisplay`. -/
  currencyDisplay : Option CurrencyView
  /-- Number of requests sent to `EXCHANGE_API_URL`. -/
  fetchCalls : Nat
  /-- Number of completed `localStorage.setItem` calls. -/
  setItemCalls : Nat
  /-- Whether `localStorage.setItem` throws (quota exceeded, storage disabled);
  a call that throws leaves the stored value as it was. -/
  setItemThrows : Bool

/-- The configuration constants of the `API` object (`this`). -/
structure Config where
  CACHE_DURATION : Int

/-- The object literal: cache duration of 10 minutes. -/
def API : Config := { CACHE_DURATION := 10 * 60 * 1000 }

/-- How the awaited request ends when it does not deliver a body: `fetch`
rejects, `response.ok` is false, or `response.json()` rejects. -/
inductive FetchFailure where
  | networkError
  | badStatus
  | malformedBody
  deriving DecidableEq, Repr

/-- What `await fetch(...)` followed by `await response.json()` yields. A rejected
`fetch` raises a `TypeError`, a rejected `response.json()` a `SyntaxError`. -/
inductive Response where
  | failure (kind : FetchFailure)
  | ok (body : JSON)

/-- Behaviour of the data source for one request: the time that passes while
the caller is suspended, and the response. -/
structure Network where
  latency : Nat
  response : Response

/-- Method `API.getCachedRates`: the cached data if still valid, else `null`. -/
def getCachedRates (self : Config) (w : World) : JSON :=
  match w.storage with
  | none => .null
  | some .unparseable => .null
  | some (.entry data timestamp) =>
    if w.now - timestamp < self.CACHE_DURATION then data else .null

/-- Method `API.cacheRates`: store the data with the current time. The call of
`localStorage.setItem` may throw; then nothing is stored. -/
def cacheRates (w : World) (data : JSON) : Except JSError World :=
  if w.setItemThrows then .error .quotaExceeded
  else .ok { w with storage := some (.entry data w.now), setItemCalls := w.setItemCalls + 1 }

/-- Method `API.displayRates`. The world is returned unchanged when nothing is
rendered; on a throw no assignment has happened yet. -/
def displayRates (w : World) (data : JSON) : Except JSError World :=
  match w.usdRate with
  | none => .ok w
  | some rateElement => do
    let rates ← getProp data "rates"
    match rates with
    | none => .ok w
    | some rates =>
      if rates.truthy then do
        let eurRate := rates.prop "EUR"
        let tryRate := rates.prop "TRY"
        let eur ← toFixed eurRate
        let tr ← toFixed tryRate
        let w1 := { w with usdRate := some { rateElement with content := .rates eur tr } }
        match w.currencyDisplay with
        | none => .ok w1
        | some _ =>
          .ok { w1 with
            currencyDisplay := some { shown := true, lastUpdated := data.prop "time_last_updated" } }
      else .ok w

/-- Method `API.displayError`. -/
def displayError (w : World) : World :=
  match w.usdRate with
  | none => w
  | some _ => { w with usdRate := some { content := .unavailable, dimmed := true } }

/-- The `try` block of `API.fetchExchangeRates`: the completion of the block and
the world at that point. -/
def fetchExchangeRates.tryBlock (self : Config) (net : Network) (w : World) :
    Except JSError JSON × World :=
  let cached := getCachedRates self w
  if cached.truthy then
    match displayRates w cached with
    | .ok w1 => (.ok cached, w1)
    | .error e => (.error e, w)
  else
    let w1 := { w with fetchCalls := w.fetchCalls + 1, now := w.now + net.latency }
    match net.response with
    | .failure .networkError => (.error .typeError, w1)
    | .failure .badStatus => (.error (.error "Failed to fetch exchange rates"), w1)
    | .failure .malformedBody => (.error .syntaxError, w1)
    | .ok data =>
      match cacheRates w1 data with
      | .error e => (.error e, w1)
      | .ok w2 =>
        match displayRates w2 data with
        | .ok w3 => (.ok data, w3)
        | .error e => (.error e, w2)

/-- Method `API.fetchExchangeRates`: the `try` block, and the `catch` clause that shows
the error state and returns `null`. -/
def fetchExchangeRates (self : Config) (net : Network) (w : World) :
    Except JSError JSON × World :=
  match fetchExchangeRates.tryBlock self net w with
  | (.ok v, w1) => (.ok v, w1)
  | (.error _, w1) => (.ok .null, displayError w1)

/-- Method `API.convertPrice`; `none` is the `null` result. -/
def convertPrice (realm : Realm) (self : Config) (w : World) (usdAmount : ℚ)
    (toCurrency : String) : Option JSProduct :=
  let cached := getCachedRates self w
  if cached.truthy then
    match cached.prop "rates" with
    | none => none
    | some rates =>
      if rates.truthy then
        let rate := rates.member realm toCurrency
        if rate.truthy then some { usdAmount := usdAmount, factor := rate } else none
      else none
  else none

/-- What `API.init` does synchronously. The callback of `setInterval` is always
a call of `fetchExchangeRates`. -/
inductive InitEffect where
  | refresh
  | setInterval (period : Int)
  deriving DecidableEq, Repr

/-- Method `API.init`. -/
def init (self : Config) (w : World) : List InitEffect :=
  match w.currencyDisplay with
  | none => []
  | some _ => [.refresh, .setInterval self.CACHE_DURATION]

/-- Number of `fetchExchangeRates` calls that one effect of `init` causes `t`
milliseconds after `init` ran, under an ideal timer: a direct call runs at
`t = 0`, an interval of period `p > 0` fires at `p`, `2p`, `3p`, ... -/
def InitEffect.firesAt (t : Nat) : InitEffect → Nat
  | .refresh => if t = 0 then 1 else 0
  | .setInterval p => if 0 < p ∧ 0 < t ∧ p ∣ (t : Int) then 1 else 0

/-- Number of `fetchExchangeRates` calls at time `t` after `init`. -/
def refreshesAt (effects : List InitEffect) (t : Nat) : Nat :=
  (effects.map (InitEffect.firesAt t)).sum

/-- The world when the awaited request has resolved: one more request was sent
and `latency` milliseconds have passed. -/
def afterFetch (w : World) (latency : Nat) : World :=
  { w with fetchCalls := w.fetchCalls + 1, now := w.now + latency }

/-- The world when `cacheRates` has stored the body after the request. -/
def afterWrite (w : World) (latency : Nat) (body : JSON) : World :=
  { afterFetch w latency with
    storage := some (.entry body (w.now + latency)), setItemCalls := w.setItemCalls + 1 }

/-- Whether the call `displayRates(data)` throws. -/
def displayRates.raises (w : World) (data : JSON) : Bool :=
  match displayRates w data with
  | .ok _ => false
  | .error _ => true

/-- Spec §3: the derived freshness verdict. -/
inductive FreshnessVerdict where
  | Fresh
  | Stale
  | Absent
  deriving DecidableEq, Repr

/-- Spec §4.2, in the words of the spec: Absent if no entry; else Fresh if
`nowLocalTime - entry.storedAtLocalTime < ttl`; else Stale. -/
def classify (storedAtLocalTime : Option Int) (nowLocalTime ttl : Int) : FreshnessVerdict :=
  match storedAtLocalTime with
  | none => .Absent
  | some s => if nowLocalTime - s < ttl then .Fresh else .Stale

/-- The time an entry was stored at, if the store holds an entry. -/
def storedAt (w : World) : Option Int :=
  match w.storage with
  | some (.entry _ timestamp) => some timestamp
  | _ => none

/-! ### Concrete inputs -/

/-- A provider response with both displayed currencies. -/
def sampleTable : JSON :=
  .obj [("rates", .obj [("EUR", .num (92 / 100)), ("TRY", .num 34)]),
        ("time_last_updated", .num 1700000000)]

/-- The table of the spec example: only `EUR`. -/
def eurOnlyTable : JSON := .obj [("rates", .obj [("EUR", .num (92 / 100))])]

/-- A table without the displayed currencies. -/
def gbpTable : JSON := .obj [("rates", .obj [("GBP", .num (8 / 10))])]

/-- A parseable body whose rate mapping is empty. -/
def emptyRatesBody : JSON := .obj [("rates", .obj [])]

/-- A page with both display elements, an empty store, at local time 1000000. -/
def page : World :=
  { now := 1000000, storage := none, usdRate := some ⟨.initial, false⟩,
    currencyDisplay := some ⟨false, none⟩, fetchCalls := 0, setItemCalls := 0,
    setItemThrows := false }

/-- The login page: no display element. -/
def loginPage : World :=
  { now := 1000000, storage := none, usdRate := none, currencyDisplay := none,
    fetchCalls := 0, setItemCalls := 0, setItemThrows := false }

/-- The page when `localStorage` refuses every write. -/
def fullPage : World := { page with setItemThrows := true }

/-- The page with the unusable entry `data: null` stored one second ago. -/
def freshNullPage : World := { page with storage := some (.entry .null 999000) }

/-- A table with a zero rate. -/
def zeroRateTable : JSON := .obj [("rates", .obj [("EUR", .num 0)])]

/-- The page with the zero-rate table stored one second ago (Fresh). -/
def freshZeroPage : World := { page with storage := some (.entry zeroRateTable 999000) }

/-- Names of the members of the standard `Object.prototype`. -/
def objectPrototypeNames : List String :=
  ["constructor", "__defineGetter__", "__defineSetter__", "hasOwnProperty",
   "__lookupGetter__", "__lookupSetter__", "isPrototypeOf", "propertyIsEnumerable",
   "toString", "valueOf", "__proto__", "toLocaleString"]

/-- The realm of the examples: a value inherits the members of the standard
`Object.prototype`, each a function or an object, hence truthy. The examples
read plain objects only; the further members of strings, arrays, numbers and
booleans are not listed. -/
def exampleRealm : Realm :=
  { builtin := fun _ key => if key ∈ objectPrototypeNames then .native true else .undefined }

/-- The page with an entry stored at time 0: its age 1000000 exceeds 600000. -/
def stalePage : World := { page with storage := some (.entry sampleTable 0) }

/-- The page with the `EUR` table stored at time 0 (Stale). -/
def staleEurPage : World := { page with storage := some (.entry eurOnlyTable 0) }

/-- The page with the `EUR` table stored one second ago (Fresh). -/
def freshEurPage : World := { page with storage := some (.entry eurOnlyTable 999000) }

/-- The page with the `GBP` table stored one second ago (Fresh). -/
def freshGbpPage : World := { page with storage := some (.entry gbpTable 999000) }

end ElectroMart

namespace ElectroMart

/-! ## Frame lemmas for the display functions -/

theorem displayError_frame (w : World) :
    (displayError w).storage = w.storage ∧ (displayError w).fetchCalls = w.fetchCalls ∧
    (displayError w).setItemCalls = w.setItemCalls ∧ (displayError w).now = w.now := by
  unfold displayError
  cases w.usdRate <;> simp

theorem displayRates_frame (w w1 : World) (data : JSON) (h : displayRates w data = .ok w1) :
    w1.storage = w.storage ∧ w1.fetchCalls = w.fetchCalls ∧
    w1.setItemCalls = w.setItemCalls ∧ w1.now = w.now := by
  unfold displayRates at h
  cases hu : w.usdRate with
  | none => simp [hu] at h; subst h; simp
  | some rateElement =>
    simp only [hu] at h
    cases hg : getProp data "rates" with
    | error e => simp [hg, bind, Except.bind] at h
    | ok rates =>
      simp only [hg, bind, Except.bind] at h
      cases rates with
      | none => simp at h; subst h; simp
      | some rates =>
        simp only at h
        split at h
        · cases he : toFixed (rates.prop "EUR") with
          | error e => simp [he] at h
          | ok eur =>
            cases ht : toFixed (rates.prop "TRY") with
            | error e => simp [he, ht] at h
            | ok tr =>
              simp only [he, ht] at h
              cases hc : w.currencyDisplay with
              | none => simp [hc] at h; subst h; simp
              | some cd => simp [hc] at h; subst h; simp
        · simp at h; subst h; simp

/-! ## The three paths of `fetchExchangeRates` -/

/-- Cache hit: the cached value is rendered and returned; a throw of the
rendering ends in the `catch` clause. -/
theorem fetchExchangeRates_hit (self : Config) (net : Network) (w : World)
    (hhit : (getCachedRates self w).truthy = true) :
    fetchExchangeRates self net w =
      match displayRates w (getCachedRates self w) with
      | .ok w1 => (.ok (getCachedRates self w), w1)
      | .error _ => (.ok .null, displayError w) := by
  unfold fetchExchangeRates fetchExchangeRates.tryBlock
  simp only [hhit, if_true]
  cases displayRates w (getCachedRates self w) <;> rfl

/-- Cache hit: no request is sent and nothing is written; the cached value is
returned whenever rendering it does not throw. -/
theorem hit_no_fetch_no_write (self : Config) (net : Network) (w : World)
    (hhit : (getCachedRates self w).truthy = true) :
    (fetchExchangeRates self net w).2.fetchCalls = w.fetchCalls ∧
    (fetchExchangeRates self net w).2.storage = w.storage ∧
    (fetchExchangeRates self net w).2.setItemCalls = w.setItemCalls ∧
    (displayRates.raises w (getCachedRates self w) = false →
      (fetchExchangeRates self net w).1 = .ok (getCachedRates self w)) := by
  rw [fetchExchangeRates_hit self net w hhit]
  unfold displayRates.raises
  cases hd : displayRates w (getCachedRates self w) with
  | error e =>
    exact ⟨(displayError_frame _).2.1, (displayError_frame _).1, (displayError_frame _).2.2.1,
      fun h => by simp at h⟩
  | ok w1 =>
    have hf := displayRates_frame w w1 _ hd
    exact ⟨hf.2.1, hf.1, hf.2.2.1, fun _ => rfl⟩

/-- Cache miss and a request that fails: nothing is written. -/
theorem fetchExchangeRates_miss_failure (self : Config) (latency : Nat) (kind : FetchFailure)
    (w : World) (hmiss : (getCachedRates self w).truthy = false) :
    fetchExchangeRates self ⟨latency, .failure kind⟩ w =
      (.ok .null, displayError { w with fetchCalls := w.fetchCalls + 1, now := w.now + latency }) := by
  unfold fetchExchangeRates fetchExchangeRates.tryBlock
  simp only [hmiss]
  cases kind <;> rfl

/-- Cache miss, a request that delivers a body, and a write that succeeds: the
body is cached first, then rendered. -/
theorem fetchExchangeRates_miss_ok (self : Config) (latency : Nat) (body : JSON)
    (w : World) (hmiss : (getCachedRates self w).truthy = false)
    (hwrite : w.setItemThrows = false) :
    fetchExchangeRates self ⟨latency, .ok body⟩ w =
      match displayRates (afterWrite w latency body) body with
      | .ok w3 => (.ok body, w3)
      | .error _ => (.ok .null, displayError (afterWrite w latency body)) := by
  have hc : cacheRates { w with fetchCalls := w.fetchCalls + 1, now := w.now + latency } body
      = .ok (afterWrite w latency body) := by
    simp [cacheRates, hwrite, afterWrite, afterFetch]
  unfold fetchExchangeRates fetchExchangeRates.tryBlock
  simp only [hmiss, hc]
  cases displayRates (afterWrite w latency body) body <;> rfl

/-- Cache miss, a request that delivers a body, and a write that throws: the
`catch` clause runs with nothing stored. -/
theorem fetchExchangeRates_miss_write_throws (self : Config) (latency : Nat) (body : JSON)
    (w : World) (hmiss : (getCachedRates self w).truthy = false)
    (hwrite : w.setItemThrows = true) :
    fetchExchangeRates self ⟨latency, .ok body⟩ w =
      (.ok .null, displayError (afterFetch w latency)) := by
  have hc : cacheRates { w with fetchCalls := w.fetchCalls + 1, now := w.now + latency } body
      = .error .quotaExceeded := by
    simp [cacheRates, hwrite]
  unfold fetchExchangeRates fetchExchangeRates.tryBlock
  simp only [hmiss, hc]
  rfl

/-- A stored entry whose age has reached the cache duration is not returned. -/
theorem getCachedRates_stale (self : Config) (w : World) (data : JSON) (timestamp : Int)
    (hentry : w.storage = some (.entry data timestamp))
    (hstale : self.CACHE_DURATION ≤ w.now - timestamp) :
    getCachedRates self w = .null := by
  unfold getCachedRates
  rw [hentry]
  simp only
  rw [if_neg (not_lt.mpr hstale)]

/-- With no value under the key nothing is returned. -/
theorem getCachedRates_absent (self : Config) (w : World) (habsent : w.storage = none) :
    getCachedRates self w = .null := by
  unfold getCachedRates
  rw [habsent]

/-- A stored entry younger than the cache duration is returned. -/
theorem getCachedRates_fresh (self : Config) (w : World) (data : JSON) (timestamp : Int)
    (hentry : w.storage = some (.entry data timestamp))
    (hfresh : w.now - timestamp < self.CACHE_DURATION) :
    getCachedRates self w = data := by
  unfold getCachedRates
  rw [hentry]
  simp only
  rw [if_pos hfresh]

/-- The storage after any call with a failing request is the storage before. -/
theorem failure_storage_frame (self : Config) (latency : Nat) (kind : FetchFailure) (w : World) :
    (fetchExchangeRates self ⟨latency, .failure kind⟩ w).2.storage = w.storage ∧
    (fetchExchangeRates self ⟨latency, .failure kind⟩ w).2.setItemCalls = w.setItemCalls := by
  cases hc : (getCachedRates self w).truthy with
  | false =>
    rw [fetchExchangeRates_miss_failure self latency kind w hc]
    exact ⟨(displayError_frame _).1, (displayError_frame _).2.2.1⟩
  | true =>
    rw [fetchExchangeRates_hit self _ w hc]
    cases hd : displayRates w (getCachedRates self w) with
    | error e => exact ⟨(displayError_frame _).1, (displayError_frame _).2.2.1⟩
    | ok w1 =>
      have hf := displayRates_frame w w1 _ hd
      exact ⟨hf.1, hf.2.2.1⟩

/-! ## Claims -/

/-- C1, as stated, fails: with a Stale entry in the store (age 1000000 against a
cache duration of 600000) and a request that ends in a network error,
`fetchExchangeRates` returns `null` and not the table of the old entry. -/
theorem stale_entry_failed_fetch_counterexample :
    stalePage.storage = some (.entry sampleTable 0) ∧
    API.CACHE_DURATION ≤ stalePage.now - 0 ∧
    (fetchExchangeRates API ⟨120, .failure .networkError⟩ stalePage).1 = .ok .null ∧
    (fetchExchangeRates API ⟨120, .failure .networkError⟩ stalePage).1 ≠ .ok sampleTable := by
  have hstale : API.CACHE_DURATION ≤ stalePage.now - 0 := by
    simp [API, stalePage, page]
  have hnull : getCachedRates API stalePage = .null :=
    getCachedRates_stale API stalePage sampleTable 0 rfl hstale
  have hmiss : (getCachedRates API stalePage).truthy = false := by rw [hnull]; rfl
  refine ⟨rfl, hstale, ?_, ?_⟩
  · rw [fetchExchangeRates_miss_failure API 120 .networkError stalePage hmiss]
  · rw [fetchExchangeRates_miss_failure API 120 .networkError stalePage hmiss]
    simp [sampleTable]

/-- C1, amended: for every store that holds a Stale entry and every failing
request (network error, bad status, unparseable body), `fetchExchangeRates`
returns `null`: the stale table is not served. One request was sent, the stale
entry is still in the store, and the error state is shown. -/
theorem stale_entry_failed_fetch_returns_null (self : Config) (w : World) (latency : Nat)
    (kind : FetchFailure) (data : JSON) (timestamp : Int)
    (hentry : w.storage = some (.entry data timestamp))
    (hstale : self.CACHE_DURATION ≤ w.now - timestamp) :
    (fetchExchangeRates self ⟨latency, .failure kind⟩ w).1 = .ok .null ∧
    (fetchExchangeRates self ⟨latency, .failure kind⟩ w).2.storage
      = some (.entry data timestamp) ∧
    (fetchExchangeRates self ⟨latency, .failure kind⟩ w).2.fetchCalls = w.fetchCalls + 1 ∧
    (fetchExchangeRates self ⟨latency, .failure kind⟩ w).2.usdRate
      = w.usdRate.map (fun _ => ⟨.unavailable, true⟩) := by
  have hnull : getCachedRates self w = .null :=
    getCachedRates_stale self w data timestamp hentry hstale
  have hmiss : (getCachedRates self w).truthy = false := by rw [hnull]; rfl
  rw [fetchExchangeRates_miss_failure self latency kind w hmiss]
  refine ⟨rfl, ?_, ?_, ?_⟩
  · rw [(displayError_frame _).1]; exact hentry
  · rw [(displayError_frame _).2.1]
  · unfold displayError
    cases w.usdRate <;> rfl

/-- Witness for `stale_entry_failed_fetch_returns_null`: the Stale page and a
response with a bad status. -/
theorem stale_entry_failed_fetch_returns_null_witness :
    (fetchExchangeRates API ⟨120, .failure .badStatus⟩ stalePage).1 = .ok .null ∧
    (fetchExchangeRates API ⟨120, .failure .badStatus⟩ stalePage).2.storage
      = some (.entry sampleTable 0) :=
  have h := stale_entry_failed_fetch_returns_null API stalePage 120 .badStatus sampleTable 0 rfl
    (by simp [API, stalePage, page])
  ⟨h.1, h.2.1⟩

/-- C2: a call of `fetchExchangeRates` whose request ends in a failure leaves the
value persisted under the cache key exactly as it was, whatever the store held
(in particular an existing entry keeps its table and its timestamp), and makes
no `setItem` call. -/
theorem failed_fetch_preserves_store (self : Config) (w : World) (latency : Nat)
    (kind : FetchFailure) :
    (fetchExchangeRates self ⟨latency, .failure kind⟩ w).2.storage = w.storage ∧
    (fetchExchangeRates self ⟨latency, .failure kind⟩ w).2.setItemCalls = w.setItemCalls :=
  failure_storage_frame self latency kind w

/-- C8: with nothing in the store and a request that ends in a failure,
`fetchExchangeRates` returns `null` and the store is still empty. -/
theorem absent_store_failed_fetch (self : Config) (w : World) (latency : Nat)
    (kind : FetchFailure) (habsent : w.storage = none) :
    (fetchExchangeRates self ⟨latency, .failure kind⟩ w).1 = .ok .null ∧
    (fetchExchangeRates self ⟨latency, .failure kind⟩ w).2.storage = none := by
  have hmiss : (getCachedRates self w).truthy = false := by
    rw [getCachedRates_absent self w habsent]; rfl
  rw [fetchExchangeRates_miss_failure self latency kind w hmiss]
  refine ⟨rfl, ?_⟩
  rw [(displayError_frame _).1]; exact habsent

/-- Witness for `absent_store_failed_fetch`: the empty page and an unparseable
body. -/
theorem absent_store_failed_fetch_witness :
    page.storage = none ∧
    (fetchExchangeRates API ⟨80, .failure .malformedBody⟩ page).1 = .ok .null ∧
    (fetchExchangeRates API ⟨80, .failure .malformedBody⟩ page).2.storage = none :=
  ⟨rfl, absent_store_failed_fetch API page 80 .malformedBody rfl⟩

/-- C9: `fetchExchangeRates` never throws. For every store content (an
unparseable string included), every behaviour of the data source and every
page, the call completes normally, and its result is `null`, the cached table
or the body that was fetched. -/
theorem fetchExchangeRates_never_throws (self : Config) (net : Network) (w : World) :
    ∃ v, (fetchExchangeRates self net w).1 = .ok v ∧
      (v = .null ∨ v = getCachedRates self w ∨ net.response = .ok v) := by
  obtain ⟨latency, response⟩ := net
  cases hc : (getCachedRates self w).truthy with
  | true =>
    rw [fetchExchangeRates_hit self _ w hc]
    cases displayRates w (getCachedRates self w) with
    | error e => exact ⟨.null, rfl, Or.inl rfl⟩
    | ok w1 => exact ⟨getCachedRates self w, rfl, Or.inr (Or.inl rfl)⟩
  | false =>
    cases response with
    | failure kind =>
      rw [fetchExchangeRates_miss_failure self latency kind w hc]
      exact ⟨.null, rfl, Or.inl rfl⟩
    | ok body =>
      cases hwrite : w.setItemThrows with
      | true =>
        rw [fetchExchangeRates_miss_write_throws self latency body w hc hwrite]
        exact ⟨.null, rfl, Or.inl rfl⟩
      | false =>
        rw [fetchExchangeRates_miss_ok self latency body w hc hwrite]
        cases displayRates (afterWrite w latency body) body with
        | error e => exact ⟨.null, rfl, Or.inl rfl⟩
        | ok w3 => exact ⟨body, rfl, Or.inr (Or.inr rfl)⟩

/-- C3: freshness classification. With `e = now - timestamp` and
`t = CACHE_DURATION`: a stored entry is Fresh, and `getCachedRates` returns its
data, if and only if `e < t`; it is Stale, and `getCachedRates` returns `null`,
whenever `e ≥ t`, in particular at `e = t`; with no entry the verdict is Absent
and `getCachedRates` returns `null`. -/
theorem getCachedRates_classification (self : Config) (w : World) :
    (∀ data timestamp, w.storage = some (.entry data timestamp) →
      (classify (storedAt w) w.now self.CACHE_DURATION = .Fresh
        ↔ w.now - timestamp < self.CACHE_DURATION) ∧
      (classify (storedAt w) w.now self.CACHE_DURATION = .Stale
        ↔ self.CACHE_DURATION ≤ w.now - timestamp) ∧
      (w.now - timestamp < self.CACHE_DURATION → getCachedRates self w = data) ∧
      (self.CACHE_DURATION ≤ w.now - timestamp → getCachedRates self w = .null) ∧
      (data ≠ .null →
        (getCachedRates self w = data ↔ w.now - timestamp < self.CACHE_DURATION)) ∧
      (w.now - timestamp = self.CACHE_DURATION →
        classify (storedAt w) w.now self.CACHE_DURATION = .Stale ∧
        getCachedRates self w = .null)) ∧
    (w.storage = none →
      classify (storedAt w) w.now self.CACHE_DURATION = .Absent ∧
      getCachedRates self w = .null) := by
  constructor
  · intro data timestamp hentry
    have hs : storedAt w = some timestamp := by unfold storedAt; rw [hentry]
    have hfresh := getCachedRates_fresh self w data timestamp hentry
    have hstale := getCachedRates_stale self w data timestamp hentry
    refine ⟨?_, ?_, hfresh, hstale, ?_, ?_⟩
    · rw [hs]; unfold classify
      by_cases h : w.now - timestamp < self.CACHE_DURATION <;> simp [h]
    · rw [hs]; unfold classify
      by_cases h : w.now - timestamp < self.CACHE_DURATION
      · simp [h]
      · simp [h, not_lt.mp h]
    · intro hdata
      constructor
      · intro hret
        by_contra h
        exact hdata (hret.symm.trans (hstale (not_lt.mp h)))
      · exact hfresh
    · intro heq
      refine ⟨?_, hstale (le_of_eq heq.symm)⟩
      rw [hs]; unfold classify
      simp [heq]
  · intro habsent
    refine ⟨?_, getCachedRates_absent self w habsent⟩
    unfold storedAt classify
    rw [habsent]

/-- Witness for `getCachedRates_classification`: on the page whose entry was
stored one second ago the table is returned; when the age equals the cache
duration exactly, it is not. -/
theorem getCachedRates_classification_witness :
    getCachedRates API freshEurPage = eurOnlyTable ∧
    getCachedRates API { page with storage := some (.entry eurOnlyTable 400000) } = .null :=
  ⟨((getCachedRates_classification API freshEurPage).1 eurOnlyTable 999000 rfl).2.2.1
      (by simp [API, freshEurPage, page]),
   (((getCachedRates_classification API
      { page with storage := some (.entry eurOnlyTable 400000) }).1 eurOnlyTable 400000 rfl).2.2.2.2.2
      (by simp [API, page])).2⟩

/-- C4 fails on the code at a Fresh entry whose table lacks the displayed
currencies, on a page that has the `#usdRate` element: the entry is Fresh and
`getCachedRates` returns its table, no request is sent and nothing is written,
but `displayRates` throws on `data.rates.EUR.toFixed(2)` and
`fetchExchangeRates` returns `null` instead of the table. -/
theorem fresh_hit_display_throw :
    getCachedRates API freshGbpPage = gbpTable ∧
    freshGbpPage.now - 999000 < API.CACHE_DURATION ∧
    (fetchExchangeRates API ⟨0, .ok sampleTable⟩ freshGbpPage).1 = .ok .null ∧
    (fetchExchangeRates API ⟨0, .ok sampleTable⟩ freshGbpPage).1 ≠ .ok gbpTable ∧
    (fetchExchangeRates API ⟨0, .ok sampleTable⟩ freshGbpPage).2.fetchCalls
      = freshGbpPage.fetchCalls ∧
    (fetchExchangeRates API ⟨0, .ok sampleTable⟩ freshGbpPage).2.storage
      = freshGbpPage.storage := by
  have hfresh : freshGbpPage.now - 999000 < API.CACHE_DURATION := by
    simp [API, freshGbpPage, page]
  have hget : getCachedRates API freshGbpPage = gbpTable :=
    getCachedRates_fresh API freshGbpPage gbpTable 999000 rfl hfresh
  have hhit : (getCachedRates API freshGbpPage).truthy = true := by rw [hget]; rfl
  have hthrow : displayRates freshGbpPage gbpTable = .error .typeError := by
    simp [displayRates, freshGbpPage, page, gbpTable, getProp, JSON.prop, List.lookup,
      JSON.truthy, toFixed, bind, Except.bind]
  have hres : fetchExchangeRates API ⟨0, .ok sampleTable⟩ freshGbpPage
      = (.ok .null, displayError freshGbpPage) := by
    rw [fetchExchangeRates_hit API _ freshGbpPage hhit, hget, hthrow]
  refine ⟨hget, hfresh, ?_, ?_, ?_, ?_⟩
  · rw [hres]
  · rw [hres]; simp [gbpTable]
  · rw [hres]; exact (displayError_frame _).2.1
  · rw [hres]; exact (displayError_frame _).1

/-- A store that is classified Stale or Absent (no value, an unparseable value
or an entry whose age has reached the cache duration) is a cache miss. -/
theorem miss_of_not_fresh (self : Config) (w : World)
    (hmiss : classify (storedAt w) w.now self.CACHE_DURATION = .Stale ∨
      classify (storedAt w) w.now self.CACHE_DURATION = .Absent) :
    (getCachedRates self w).truthy = false := by
  cases hs : w.storage with
  | none => rw [getCachedRates_absent self w hs]; rfl
  | some stored =>
    cases stored with
    | unparseable => unfold getCachedRates; rw [hs]; rfl
    | entry data timestamp =>
      have hst : storedAt w = some timestamp := by unfold storedAt; rw [hs]
      rw [hst] at hmiss
      unfold classify at hmiss
      by_cases hfresh : w.now - timestamp < self.CACHE_DURATION
      · simp [hfresh] at hmiss
      · rw [getCachedRates_stale self w data timestamp hs (not_lt.mp hfresh)]; rfl

/-- Whether `displayRates` throws depends on the `#usdRate` element and on the
data only. -/
theorem raises_congr (w1 w2 : World) (data : JSON) (h : w1.usdRate = w2.usdRate) :
    displayRates.raises w1 data = displayRates.raises w2 data := by
  unfold displayRates.raises displayRates
  rw [h]
  cases w2.usdRate with
  | none => rfl
  | some rateElement =>
    simp only
    cases getProp data "rates" with
    | error e => rfl
    | ok rates =>
      cases rates with
      | none => rfl
      | some rates =>
        simp only [bind, Except.bind]
        by_cases ht : rates.truthy = true
        · rw [if_pos ht, if_pos ht]
          cases toFixed (rates.prop "EUR") with
          | error e => rfl
          | ok eur =>
            cases toFixed (rates.prop "TRY") with
            | error e => rfl
            | ok tr =>
              simp only
              cases w1.currencyDisplay <;> cases w2.currencyDisplay <;> rfl
        · rw [if_neg ht, if_neg ht]

/-- On a cache miss with a write that succeeds, a delivered body is stored with
the time of the write, which is the time of the read plus the duration of the
request. -/
theorem miss_ok_storage (self : Config) (latency : Nat) (body : JSON) (w : World)
    (hmiss : (getCachedRates self w).truthy = false) (hwrite : w.setItemThrows = false) :
    (fetchExchangeRates self ⟨latency, .ok body⟩ w).2.storage
      = some (.entry body (w.now + latency)) ∧
    (fetchExchangeRates self ⟨latency, .ok body⟩ w).2.setItemCalls = w.setItemCalls + 1 ∧
    (fetchExchangeRates self ⟨latency, .ok body⟩ w).2.fetchCalls = w.fetchCalls + 1 ∧
    (displayRates.raises w body = false →
      (fetchExchangeRates self ⟨latency, .ok body⟩ w).1 = .ok body) := by
  have hr : displayRates.raises (afterWrite w latency body) body = displayRates.raises w body :=
    raises_congr _ _ body rfl
  rw [fetchExchangeRates_miss_ok self latency body w hmiss hwrite]
  cases hd : displayRates (afterWrite w latency body) body with
  | error e =>
    refine ⟨(displayError_frame _).1, (displayError_frame _).2.2.1,
      (displayError_frame _).2.1, ?_⟩
    intro hno
    rw [← hr] at hno
    unfold displayRates.raises at hno
    rw [hd] at hno
    simp at hno
  | ok w3 =>
    have hf := displayRates_frame _ w3 body hd
    exact ⟨hf.1, hf.2.2.1, hf.2.1, fun _ => rfl⟩

/-- On a cache miss with a write that throws, nothing is stored and `null` is
returned. -/
theorem miss_write_throws_storage (self : Config) (latency : Nat) (body : JSON) (w : World)
    (hmiss : (getCachedRates self w).truthy = false) (hwrite : w.setItemThrows = true) :
    (fetchExchangeRates self ⟨latency, .ok body⟩ w).2.storage = w.storage ∧
    (fetchExchangeRates self ⟨latency, .ok body⟩ w).2.setItemCalls = w.setItemCalls ∧
    (fetchExchangeRates self ⟨latency, .ok body⟩ w).2.fetchCalls = w.fetchCalls + 1 ∧
    (fetchExchangeRates self ⟨latency, .ok body⟩ w).1 = .ok .null := by
  rw [fetchExchangeRates_miss_write_throws self latency body w hmiss hwrite]
  exact ⟨(displayError_frame _).1, (displayError_frame _).2.2.1,
    (displayError_frame _).2.1, rfl⟩

/-- C5, as stated, fails: on the empty page at local time 1000000 a request that
takes 250 ms and delivers a table leaves an entry stamped 1000250, the time of
the write, not the time 1000000 at which the store was classified. -/
theorem successful_refresh_timestamp_counterexample :
    page.storage = none ∧ page.now = 1000000 ∧
    (fetchExchangeRates API ⟨250, .ok sampleTable⟩ page).2.storage
      = some (.entry sampleTable 1000250) ∧
    (fetchExchangeRates API ⟨250, .ok sampleTable⟩ page).2.storage
      ≠ some (.entry sampleTable page.now) := by
  have hmiss : (getCachedRates API page).truthy = false := by
    rw [getCachedRates_absent API page rfl]; rfl
  have h := (miss_ok_storage API 250 sampleTable page hmiss rfl).1
  refine ⟨rfl, rfl, ?_, ?_⟩
  · rw [h]; simp [page]
  · rw [h]; simp [page]

/-- C5, amended: for every store classified Stale or Absent and every request
that delivers a body, `fetchExchangeRates` sends one request. When
`localStorage` accepts the write, the stored value is replaced by exactly that
body, stamped with the local time read at the write (the time of the
classification plus the duration of the request), and, when rendering the body
does not throw, the call returns that body. When the write throws, the store
stays as it was and the call returns `null`. -/
theorem successful_refresh_writes_at_write_time (self : Config) (w : World) (latency : Nat)
    (body : JSON)
    (hmiss : classify (storedAt w) w.now self.CACHE_DURATION = .Stale ∨
      classify (storedAt w) w.now self.CACHE_DURATION = .Absent) :
    (fetchExchangeRates self ⟨latency, .ok body⟩ w).2.fetchCalls = w.fetchCalls + 1 ∧
    (w.setItemThrows = false →
      (fetchExchangeRates self ⟨latency, .ok body⟩ w).2.storage
        = some (.entry body (w.now + latency)) ∧
      (fetchExchangeRates self ⟨latency, .ok body⟩ w).2.setItemCalls = w.setItemCalls + 1 ∧
      (displayRates.raises w body = false →
        (fetchExchangeRates self ⟨latency, .ok body⟩ w).1 = .ok body)) ∧
    (w.setItemThrows = true →
      (fetchExchangeRates self ⟨latency, .ok body⟩ w).2.storage = w.storage ∧
      (fetchExchangeRates self ⟨latency, .ok body⟩ w).2.setItemCalls = w.setItemCalls ∧
      (fetchExchangeRates self ⟨latency, .ok body⟩ w).1 = .ok .null) := by
  have hm := miss_of_not_fresh self w hmiss
  refine ⟨?_, ?_, ?_⟩
  · cases hwrite : w.setItemThrows with
    | true => exact (miss_write_throws_storage self latency body w hm hwrite).2.2.1
    | false => exact (miss_ok_storage self latency body w hm hwrite).2.2.1
  · intro hwrite
    have hs := miss_ok_storage self latency body w hm hwrite
    exact ⟨hs.1, hs.2.1, hs.2.2.2⟩
  · intro hwrite
    have hs := miss_write_throws_storage self latency body w hm hwrite
    exact ⟨hs.1, hs.2.1, hs.2.2.2⟩

/-- Witness for `successful_refresh_writes_at_write_time`: on the Stale page a
request of 250 ms that delivers the sample table stores it with the stamp
1000250 and returns it; on the page whose storage refuses the write the store
stays empty and `null` is returned. -/
theorem successful_refresh_writes_at_write_time_witness :
    (fetchExchangeRates API ⟨250, .ok sampleTable⟩ stalePage).2.storage
      = some (.entry sampleTable (stalePage.now + (250 : Nat))) ∧
    (fetchExchangeRates API ⟨250, .ok sampleTable⟩ stalePage).1 = .ok sampleTable ∧
    (fetchExchangeRates API ⟨250, .ok sampleTable⟩ fullPage).2.storage = none ∧
    (fetchExchangeRates API ⟨250, .ok sampleTable⟩ fullPage).1 = .ok .null :=
  have hstale : classify (storedAt stalePage) stalePage.now API.CACHE_DURATION = .Stale ∨
      classify (storedAt stalePage) stalePage.now API.CACHE_DURATION = .Absent :=
    Or.inl (by simp [classify, storedAt, stalePage, page, API])
  have h1 := (successful_refresh_writes_at_write_time API stalePage 250 sampleTable hstale).2.1 rfl
  have h2 := (successful_refresh_writes_at_write_time API fullPage 250 sampleTable
    (Or.inr rfl)).2.2 rfl
  ⟨h1.1, h1.2.2 (by
      simp [displayRates.raises, displayRates, stalePage, page, sampleTable, getProp,
        JSON.prop, List.lookup, JSON.truthy, toFixed, bind, Except.bind]),
    h2.1, h2.2.2⟩

/-- C6, as stated, fails: on the login page with an empty store, a response with
a success status and the body with an empty rate mapping is not rejected; the
body is written to the store, which is no longer as it was. -/
theorem empty_rates_counterexample :
    loginPage.storage = none ∧
    emptyRatesBody.prop "rates" = some (.obj []) ∧
    (fetchExchangeRates API ⟨0, .ok emptyRatesBody⟩ loginPage).1 = .ok emptyRatesBody ∧
    (fetchExchangeRates API ⟨0, .ok emptyRatesBody⟩ loginPage).2.storage
      = some (.entry emptyRatesBody 1000000) ∧
    (fetchExchangeRates API ⟨0, .ok emptyRatesBody⟩ loginPage).2.storage
      ≠ loginPage.storage := by
  have hmiss : (getCachedRates API loginPage).truthy = false := by
    rw [getCachedRates_absent API loginPage rfl]; rfl
  have h := miss_ok_storage API 0 emptyRatesBody loginPage hmiss rfl
  refine ⟨rfl, rfl, h.2.2.2 rfl, ?_, ?_⟩
  · rw [h.1]; simp [loginPage]
  · rw [h.1]; simp [loginPage]

/-- C6, amended: a body whose rate mapping is empty is not rejected; the outcome
of every store state is covered. When `getCachedRates` yields no usable value
(no entry, an unparseable one, a Stale one, or one whose data is falsy) and
`localStorage` accepts the write, `fetchExchangeRates` writes that body to the
store, stamped with the time of the write: the store then holds a table whose
rate mapping is empty. When the write throws, the store stays as it was. When
`getCachedRates` yields a truthy value, no request is sent and the store stays
as it was. -/
theorem empty_rates_body_is_cached (self : Config) (w : World) (latency : Nat) (body : JSON)
    (hempty : body.prop "rates" = some (.obj [])) :
    ((getCachedRates self w).truthy = false → w.setItemThrows = false →
      (fetchExchangeRates self ⟨latency, .ok body⟩ w).2.setItemCalls = w.setItemCalls + 1 ∧
      ∃ stored, (fetchExchangeRates self ⟨latency, .ok body⟩ w).2.storage
          = some (.entry stored (w.now + latency)) ∧
        stored = body ∧ stored.prop "rates" = some (.obj [])) ∧
    ((getCachedRates self w).truthy = false → w.setItemThrows = true →
      (fetchExchangeRates self ⟨latency, .ok body⟩ w).2.storage = w.storage) ∧
    ((getCachedRates self w).truthy = true →
      (fetchExchangeRates self ⟨latency, .ok body⟩ w).2.storage = w.storage ∧
      (fetchExchangeRates self ⟨latency, .ok body⟩ w).2.fetchCalls = w.fetchCalls) := by
  refine ⟨?_, ?_, ?_⟩
  · intro hmiss hwrite
    have hs := miss_ok_storage self latency body w hmiss hwrite
    exact ⟨hs.2.1, body, hs.1, rfl, hempty⟩
  · intro hmiss hwrite
    exact (miss_write_throws_storage self latency body w hmiss hwrite).1
  · intro hhit
    have hh := hit_no_fetch_no_write self ⟨latency, .ok body⟩ w hhit
    exact ⟨hh.2.1, hh.1⟩

/-- Witness for `empty_rates_body_is_cached`: on the Stale page the body with an
empty rate mapping replaces the entry; on the page whose entry holds the unusable
data `null`, one second old, it is written as well. -/
theorem empty_rates_body_is_cached_witness :
    (∃ stored, (fetchExchangeRates API ⟨30, .ok emptyRatesBody⟩ stalePage).2.storage
        = some (.entry stored (stalePage.now + (30 : Nat))) ∧
      stored = emptyRatesBody ∧ stored.prop "rates" = some (.obj [])) ∧
    (∃ stored, (fetchExchangeRates API ⟨30, .ok emptyRatesBody⟩ freshNullPage).2.storage
        = some (.entry stored (freshNullPage.now + (30 : Nat))) ∧
      stored = emptyRatesBody ∧ stored.prop "rates" = some (.obj [])) :=
  ⟨((empty_rates_body_is_cached API stalePage 30 emptyRatesBody rfl).1
      (by simp [getCachedRates, stalePage, page, API, JSON.truthy]) rfl).2,
   ((empty_rates_body_is_cached API freshNullPage 30 emptyRatesBody rfl).1
      (by simp [getCachedRates, freshNullPage, page, API, JSON.truthy]) rfl).2⟩

/-- C7, as stated, fails: the store holds an entry with the table
`EUR ↦ 0.92`, so an entry exists and `EUR` is present in it, but the entry is
Stale (age 1000000) and `convertPrice(100, "EUR")` returns `null`, not 92. -/
theorem convertPrice_stale_counterexample :
    staleEurPage.storage = some (.entry eurOnlyTable 0) ∧
    (eurOnlyTable.prop "rates").bind (fun rates => rates.prop "EUR") = some (.num (92 / 100)) ∧
    convertPrice exampleRealm API staleEurPage 100 "EUR" = none := by
  have hnull : getCachedRates API staleEurPage = .null :=
    getCachedRates_stale API staleEurPage eurOnlyTable 0 rfl (by simp [API, staleEurPage, page])
  refine ⟨rfl, ?_, ?_⟩
  · simp [eurOnlyTable, JSON.prop, List.lookup]
  · unfold convertPrice
    rw [hnull]
    rfl

/-- On a Fresh entry that holds a table with a rate object, `convertPrice` is
the guarded read of the currency in that object. -/
theorem convertPrice_of_fresh (realm : Realm) (self : Config) (w : World) (usdAmount : ℚ)
    (toCurrency : String) (fields kvs : List (String × JSON)) (timestamp : Int)
    (hentry : w.storage = some (.entry (.obj fields) timestamp))
    (hrates : fields.lookup "rates" = some (.obj kvs))
    (hfresh : w.now - timestamp < self.CACHE_DURATION) :
    convertPrice realm self w usdAmount toCurrency =
      if ((JSON.obj kvs).member realm toCurrency).truthy
      then some { usdAmount := usdAmount, factor := (JSON.obj kvs).member realm toCurrency }
      else none := by
  unfold convertPrice
  rw [getCachedRates_fresh self w _ timestamp hentry hfresh]
  simp [JSON.truthy, JSON.prop, hrates]

/-- C7, amended: `convertPrice` reads the cache through `getCachedRates`, so a
Stale entry is not served. With no entry, an unparseable one or a Stale one the
result is `null`; so it is with a Fresh entry whose data has no `rates`. With a
Fresh table the result is decided by the read of the currency in the rate
object: a rate that is truthy gives the product `usdAmount * rate`, a rate that
is falsy (such as 0) gives `null`, and a currency that is absent gives what the
realm has under that name. For a currency that names no built-in member the
result is `null` exactly when the entry is not Fresh, the currency is absent, or
its rate is falsy. -/
theorem convertPrice_fresh_only (realm : Realm) (self : Config) (w : World) (usdAmount : ℚ)
    (toCurrency : String) :
    (w.storage = none → convertPrice realm self w usdAmount toCurrency = none) ∧
    (w.storage = some .unparseable → convertPrice realm self w usdAmount toCurrency = none) ∧
    (∀ data timestamp, w.storage = some (.entry data timestamp) →
      (self.CACHE_DURATION ≤ w.now - timestamp →
        convertPrice realm self w usdAmount toCurrency = none) ∧
      (data.prop "rates" = none → convertPrice realm self w usdAmount toCurrency = none) ∧
      (w.now - timestamp < self.CACHE_DURATION → ∀ rates, data.prop "rates" = some rates →
        convertPrice realm self w usdAmount toCurrency =
          if rates.truthy = true ∧ (rates.member realm toCurrency).truthy = true
          then some { usdAmount := usdAmount, factor := rates.member realm toCurrency }
          else none)) ∧
    (∀ fields kvs timestamp,
      w.storage = some (.entry (.obj fields) timestamp) →
      fields.lookup "rates" = some (.obj kvs) →
      (self.CACHE_DURATION ≤ w.now - timestamp →
        convertPrice realm self w usdAmount toCurrency = none) ∧
      (w.now - timestamp < self.CACHE_DURATION →
        (∀ rate, kvs.lookup toCurrency = some rate →
          convertPrice realm self w usdAmount toCurrency =
            if rate.truthy then some { usdAmount := usdAmount, factor := .json rate }
            else none) ∧
        (kvs.lookup toCurrency = none →
          convertPrice realm self w usdAmount toCurrency =
            if (realm.builtin (.obj kvs) toCurrency).truthy
            then some { usdAmount := usdAmount, factor := realm.builtin (.obj kvs) toCurrency }
            else none)) ∧
      (realm.builtin (.obj kvs) toCurrency = .undefined →
        (convertPrice realm self w usdAmount toCurrency = none ↔
          self.CACHE_DURATION ≤ w.now - timestamp ∨ kvs.lookup toCurrency = none ∨
          ∃ rate, kvs.lookup toCurrency = some rate ∧ rate.truthy = false))) := by
  refine ⟨?_, ?_, ?_, ?_⟩
  · intro habsent
    unfold convertPrice
    rw [getCachedRates_absent self w habsent]
    rfl
  · intro hbad
    unfold convertPrice getCachedRates
    rw [hbad]
    rfl
  · intro data timestamp hentry
    refine ⟨?_, ?_, ?_⟩
    · intro h
      unfold convertPrice
      rw [getCachedRates_stale self w _ timestamp hentry h]
      rfl
    · intro hno
      by_cases hfresh : w.now - timestamp < self.CACHE_DURATION
      · unfold convertPrice
        rw [getCachedRates_fresh self w _ timestamp hentry hfresh]
        simp [hno]
      · unfold convertPrice
        rw [getCachedRates_stale self w _ timestamp hentry (not_lt.mp hfresh)]
        rfl
    · intro hfresh rates hrates
      have hobj : data.truthy = true := by
        cases data <;> simp [JSON.prop] at hrates
        rfl
      unfold convertPrice
      rw [getCachedRates_fresh self w _ timestamp hentry hfresh]
      simp only [hobj, if_true, hrates]
      by_cases h1 : rates.truthy = true
      · by_cases h2 : (rates.member realm toCurrency).truthy = true
        · simp [h1, h2]
        · simp [h1, h2]
      · simp [h1]
  · intro fields kvs timestamp hentry hrates
    have hstale : self.CACHE_DURATION ≤ w.now - timestamp →
        convertPrice realm self w usdAmount toCurrency = none := by
      intro h
      unfold convertPrice
      rw [getCachedRates_stale self w _ timestamp hentry h]
      rfl
    have hown : ∀ rate, kvs.lookup toCurrency = some rate →
        (JSON.obj kvs).member realm toCurrency = .json rate := by
      intro rate hl
      simp [JSON.member, JSON.prop, hl]
    have hnone : kvs.lookup toCurrency = none →
        (JSON.obj kvs).member realm toCurrency = realm.builtin (.obj kvs) toCurrency := by
      intro hl
      simp [JSON.member, JSON.prop, hl]
    refine ⟨hstale, ?_, ?_⟩
    · intro hfresh
      have hc := convertPrice_of_fresh realm self w usdAmount toCurrency fields kvs timestamp
        hentry hrates hfresh
      constructor
      · intro rate hl
        rw [hc, hown rate hl]
        rfl
      · intro hl
        rw [hc, hnone hl]
    · intro hreal
      by_cases hfresh : w.now - timestamp < self.CACHE_DURATION
      · have hc := convertPrice_of_fresh realm self w usdAmount toCurrency fields kvs timestamp
          hentry hrates hfresh
        cases hl : kvs.lookup toCurrency with
        | none =>
          rw [hc, hnone hl, hreal]
          simp [Member.truthy]
        | some rate =>
          rw [hc, hown rate hl]
          cases ht : rate.truthy <;> simp [Member.truthy, ht, not_le.mpr hfresh]
      · have h := not_lt.mp hfresh
        exact ⟨fun _ => Or.inl h, fun _ => hstale h⟩

/-- Witness for `convertPrice_fresh_only`: with the Fresh table `EUR ↦ 0.92`,
`convertPrice(100, "EUR")` is the product of 100 and the rate, and
`convertPrice(100, "JPY")` is `null`; with the Fresh table `EUR ↦ 0` the result
for `EUR` is `null` although the currency is present. -/
theorem convertPrice_fresh_only_witness :
    convertPrice exampleRealm API freshEurPage 100 "EUR"
      = some { usdAmount := 100, factor := .json (.num (92 / 100)) } ∧
    convertPrice exampleRealm API freshEurPage 100 "JPY" = none ∧
    convertPrice exampleRealm API freshZeroPage 100 "EUR" = none := by
  have hfresh : freshEurPage.now - 999000 < API.CACHE_DURATION := by
    simp [API, freshEurPage, page]
  have hfresh0 : freshZeroPage.now - 999000 < API.CACHE_DURATION := by
    simp [API, freshZeroPage, page]
  have h1 := ((convertPrice_fresh_only exampleRealm API freshEurPage 100 "EUR").2.2.2
    [("rates", .obj [("EUR", .num (92 / 100))])] [("EUR", .num (92 / 100))] 999000 rfl rfl).2.1
    hfresh
  have h2 := ((convertPrice_fresh_only exampleRealm API freshEurPage 100 "JPY").2.2.2
    [("rates", .obj [("EUR", .num (92 / 100))])] [("EUR", .num (92 / 100))] 999000 rfl rfl).2.2
    (by simp [exampleRealm, objectPrototypeNames])
  have h3 := ((convertPrice_fresh_only exampleRealm API freshZeroPage 100 "EUR").2.2.2
    [("rates", .obj [("EUR", .num 0)])] [("EUR", .num 0)] 999000 rfl rfl).2.1 hfresh0
  refine ⟨?_, ?_, ?_⟩
  · rw [h1.1 (.num (92 / 100)) (by simp [List.lookup])]
    simp [JSON.truthy]
  · exact h2.mpr (Or.inr (Or.inl (by simp [List.lookup])))
  · rw [h3.1 (.num 0) (by simp [List.lookup])]
    simp [JSON.truthy]

/-- C10: the scheduler. The cache duration of `API` is 600000 ms. On a page
with the `#currencyDisplay` element `init` calls `fetchExchangeRates` once and
registers one interval whose period is the cache duration; under an ideal timer
a refresh then runs exactly at the times `k * 600000` ms, one per such time, and
at no other time. On a page without the element `init` does nothing. -/
theorem init_schedule (w : World) :
    API.CACHE_DURATION = 600000 ∧
    (∀ cd, w.currencyDisplay = some cd →
      (∀ self : Config, init self w = [.refresh, .setInterval self.CACHE_DURATION]) ∧
      (∀ k : Nat, refreshesAt (init API w) (k * 600000) = 1) ∧
      (∀ t : Nat, ¬ 600000 ∣ t → refreshesAt (init API w) t = 0)) ∧
    (w.currencyDisplay = none →
      (∀ self : Config, init self w = []) ∧ ∀ t : Nat, refreshesAt (init API w) t = 0) := by
  refine ⟨by simp [API], ?_, ?_⟩
  · intro cd hcd
    refine ⟨?_, ?_, ?_⟩
    · intro self; unfold init; rw [hcd]
    · intro k
      simp only [refreshesAt, init, hcd, API, InitEffect.firesAt, List.map, List.sum_cons,
        List.sum_nil]
      by_cases hk : k = 0
      · subst hk; simp
      · have h1 : ¬ (k * 600000 = 0) := by omega
        have h2 : (0 : Int) < 10 * 60 * 1000 ∧ 0 < k * 600000 ∧
            (10 * 60 * 1000 : Int) ∣ ((k * 600000 : Nat) : Int) := by
          refine ⟨by norm_num, by omega, ⟨(k : Int), ?_⟩⟩
          push_cast; ring
        rw [if_neg h1, if_pos h2]; rfl
    · intro t ht
      simp only [refreshesAt, init, hcd, API, InitEffect.firesAt, List.map, List.sum_cons,
        List.sum_nil]
      have h1 : ¬ (t = 0) := by
        intro h; subst h; exact ht (dvd_zero _)
      have h2 : ¬ ((0 : Int) < 10 * 60 * 1000 ∧ 0 < t ∧ (10 * 60 * 1000 : Int) ∣ (t : Int)) := by
        rintro ⟨_, _, hd⟩
        apply ht
        have : ((600000 : Nat) : Int) ∣ (t : Int) := by
          norm_num at hd ⊢; exact hd
        exact Int.natCast_dvd_natCast.mp this
      rw [if_neg h1, if_neg h2]; rfl
  · intro hcd
    refine ⟨?_, ?_⟩
    · intro self; unfold init; rw [hcd]
    · intro t
      simp [refreshesAt, init, hcd]

/-- Witness for `init_schedule`: on the page with the element, refreshes run at
0 ms and at 600000 ms and none at 300000 ms; on the login page none at 0 ms. -/
theorem init_schedule_witness :
    refreshesAt (init API page) (0 * 600000) = 1 ∧
    refreshesAt (init API page) (1 * 600000) = 1 ∧
    refreshesAt (init API page) 300000 = 0 ∧
    refreshesAt (init API loginPage) 0 = 0 :=
  ⟨((init_schedule page).2.1 ⟨false, none⟩ rfl).2.1 0,
   ((init_schedule page).2.1 ⟨false, none⟩ rfl).2.1 1,
   ((init_schedule page).2.1 ⟨false, none⟩ rfl).2.2 300000 (by decide),
   ((init_schedule loginPage).2.2 rfl).2 0⟩

end ElectroMart
